import Mathlib

/-!
Shallow embedding of the solar-equipment-explorer ingestion scripts
(`pv_module_downloader.py`, `modules/inverter_downloader.py`,
`modules/battery_downloader.py`, `meters/meter_downloader.py`,
`storage/energy_storage_downloader.py`): record identity, spreadsheet
normalization, date normalization, and the per-category catalog
ingestion (bulk-create / upsert / drop-and-recreate) paths.
-/

namespace SolarExplorer

/-- A spreadsheet or database cell: either null (`NaN`/`None`) or a string
value. Every catalog column is stored as text, so string cells suffice. -/
abbrev Value := Option String

/-- Python `str()` applied to a cell, as `astype(str)` performs it: a null
cell stringifies to the literal `"nan"`. -/
def pyStr : Value → String
  | none => "nan"
  | some s => s

/-- One normalized source record before identity assignment: the designated
manufacturer and model cells plus the remaining (column name, value) pairs. -/
structure SourceRow where
  manufacturer : Value
  model : Value
  others : List (String × Value)
deriving DecidableEq, Repr

/-- Embedding of `df['Manufacturer'].astype(str) + '_' + df['Model Number'].astype(str)`
(`pv_module_downloader.py` line 39; the inverter, battery, storage and meter
scripts build their identifiers identically from their two designated columns). -/
def identifier (r : SourceRow) : String :=
  pyStr r.manufacturer ++ "_" ++ pyStr r.model

/-- A catalog row: the identifier (the key column) plus the non-key columns
in order. -/
structure Row where
  id : String
  fields : List (String × Value)
deriving DecidableEq, Repr

/-- Building one incoming catalog row: the derived identifier plus the source
columns followed by a `Date Added to Tool` column holding the run's single
`current_time` string `t`. -/
def normalizeRow (t : String) (s : SourceRow) : Row :=
  { id := identifier s, fields := s.others ++ [("Date Added to Tool", some t)] }

/-- Identifiers present in a table (`SELECT module_id FROM pv_modules`). -/
def tableIds (t : List Row) : List String := t.map Row.id

/-- Per-row insertion with `sqlite3.IntegrityError` skip: a row whose
identifier already exists in the table (a TEXT PRIMARY KEY) is skipped,
any other row is appended and counted. -/
def insertRows : List Row → List Row → List Row × Nat
  | t, [] => (t, 0)
  | t, r :: rs =>
    if (tableIds t).contains r.id then insertRows t rs
    else
      let p := insertRows (t ++ [r]) rs
      (p.1, p.2 + 1)

/-- Effect of one `UPDATE <table> SET "c1" = ?, ... WHERE <id> = ?` statement:
every non-key column of each row whose identifier matches is overwritten
wholesale with the incoming values (null parameters included). -/
def applyUpdateT (t : List Row) (r : Row) : List Row :=
  t.map fun e => if e.id = r.id then { id := e.id, fields := r.fields } else e

/-- Value of `cursor.rowcount` after that UPDATE: the number of matching rows. -/
def applyUpdateC (t : List Row) (r : Row) : Nat :=
  (t.filter fun e => e.id = r.id).length

/-- The update loop over `df_update`, accumulating
`update_count += cursor.rowcount`. -/
def updateAll : List Row → List Row → List Row × Nat
  | t, [] => (t, 0)
  | t, r :: rs =>
    let p := updateAll (applyUpdateT t r) rs
    (p.1, applyUpdateC t r + p.2)

/-- Split of the incoming frame:
`df_new = df[~df[id].isin(existing_ids)]` and
`df_update = df[df[id].isin(existing_ids)]`. -/
def dfSplit (incoming : List Row) (ids : List String) : List Row × List Row :=
  (incoming.filter fun r => !(ids.contains r.id),
   incoming.filter fun r => ids.contains r.id)

/-- The upsert branch taken when a table with the identifier column exists:
insert `df_new` one row at a time (conflicts skipped), then run the UPDATE
loop over `df_update`. Returns (table, inserted, updated). -/
def upsertExisting (existing incoming : List Row) : List Row × Nat × Nat :=
  let s := dfSplit incoming (tableIds existing)
  let ins := insertRows existing s.1
  let upd := updateAll ins.1 s.2
  (upd.1, ins.2, upd.2)

/-- Bulk creation of a fresh table. The whole-frame `to_sql(if_exists='append')`
succeeds exactly when the incoming identifiers are distinct and is rolled back
on an `IntegrityError`, after which the per-row loop inserts with
duplicate-identifier skip, so the net effect is always the per-row path. -/
def bulkCreate (incoming : List Row) : List Row × Nat := insertRows [] incoming

/-- A persisted catalog table: whether its schema has the identifier column
(what the `SELECT <id> FROM <table> LIMIT 1` probe detects) and its rows. -/
structure Table where
  hasIdCol : Bool
  rows : List Row
deriving DecidableEq, Repr

/-- Ingestion for `pv_modules` and `inverters` (steps 6-7 of those scripts):
if the table is absent or lacks the identifier column, drop it and bulk-create
from the incoming frame; otherwise run the upsert branch.
Returns (table, inserted, updated). -/
def upsertIngest (incoming : List Row) (existing : Option Table) : Table × Nat × Nat :=
  match existing with
  | none =>
    let p := bulkCreate incoming
    (⟨true, p.1⟩, p.2, 0)
  | some tb =>
    if tb.hasIdCol then
      let p := upsertExisting tb.rows incoming
      (⟨true, p.1⟩, p.2.1, p.2.2)
    else
      let p := bulkCreate incoming
      (⟨true, p.1⟩, p.2, 0)

/-- Ingestion for `meters`, `batteries` and `energy_storage`: an existing table
is dropped unconditionally and a table is created with a PRIMARY KEY, but
`df.to_sql(..., if_exists='replace')` then drops that table again and recreates
it from the frame without any key constraint (pandas infers plain TEXT columns),
inserting every incoming row verbatim, duplicate identifiers included.
Reported counts: inserted = `len(df)`, updated = 0. -/
def replaceIngest (incoming : List Row) (_existing : Option Table) : Table × Nat × Nat :=
  (⟨true, incoming⟩, incoming.length, 0)

/-- Category bindings: the five scripts share two ingestion shapes. -/
def pvModulesIngest := upsertIngest

def invertersIngest := upsertIngest

def metersIngest := replaceIngest

def batteriesIngest := replaceIngest

def energyStorageIngest := replaceIngest

/-- A category run seen from the persisted database. Each script checks
`response.status_code != 200` and raises before opening the database, so on a
non-200 status the persisted table is returned untouched alongside the error. -/
def runCategory (ingest : List Row → Option Table → Table × Nat × Nat)
    (status : Nat) (incoming : List Row) (db : Option Table) :
    Option Table × Except String (Nat × Nat) :=
  if status ≠ 200 then (db, .error "Failed to download file")
  else
    let p := ingest incoming db
    (some p.1, .ok (p.2.1, p.2.2))

/-- Python whitespace characters stripped by `str.strip()`. -/
def isPySpace (c : Char) : Bool :=
  c == ' ' || c == '\t' || c == '\n' || c == '\r' || c == '\x0b' || c == '\x0c'

/-- Embedding of `str(date_value).strip()`. -/
def pyStrip (s : String) : String :=
  ⟨((s.data.dropWhile isPySpace).reverse.dropWhile isPySpace).reverse⟩

/-- Embedding of `date_str.isdigit() and len(date_str) == 10` (ASCII digits;
the length test makes the empty-string case agree with Python's `isdigit`). -/
def isTenDigitEpoch (s : String) : Bool :=
  s.data.all Char.isDigit && s.data.length == 10

/-- Numeric value of a decimal digit string (`int(date_str)`). -/
def strToNat (s : String) : Nat :=
  s.data.foldl (fun a c => a * 10 + (c.toNat - 48)) 0

/-- A proleptic Gregorian date as a Python `datetime` carries it
(`datetime` guarantees 1 <= year <= 9999, 1 <= month <= 12, 1 <= day <= 31). -/
structure CivilDate where
  year : Nat
  month : Nat
  day : Nat
deriving DecidableEq, Repr

/-- Days-since-epoch to civil date, the standard civil-from-days computation
performed inside `datetime.fromtimestamp`; `Nat` division and subtraction agree
with the integer algorithm on the reachable domain (1970 onwards). -/
def civilFromDays (days : Nat) : CivilDate :=
  let z := days + 719468
  let era := z / 146097
  let doe := z % 146097
  let yoe := (doe - doe / 1460 + doe / 36524 - doe / 146096) / 365
  let y := yoe + era * 400
  let doy := doe - (365 * yoe + yoe / 4 - yoe / 100)
  let mp := (5 * doy + 2) / 153
  let d := doy - (153 * mp + 2) / 5 + 1
  let m := if mp < 10 then mp + 3 else mp - 9
  { year := if m ≤ 2 then y + 1 else y, month := m, day := d }

/-- Embedding of `datetime.fromtimestamp(int(date_str))`: the epoch seconds are
interpreted at the local UTC offset `tz` (in seconds); the clamp at the epoch
only affects pre-1970 local times, whose formatting shape is the same. -/
def epochToCivil (tz : Int) (n : Nat) : CivilDate :=
  civilFromDays (((n : Int) + tz).toNat / 86400)

/-- Embedding of `strftime('%Y-%m-%d')`: zero-padded 4-digit year and 2-digit
month and day, the widths Python produces for every representable `datetime`. -/
def formatCivil (d : CivilDate) : String :=
  ⟨[Nat.digitChar (d.year / 1000 % 10), Nat.digitChar (d.year / 100 % 10),
    Nat.digitChar (d.year / 10 % 10), Nat.digitChar (d.year % 10), '-',
    Nat.digitChar (d.month / 10 % 10), Nat.digitChar (d.month % 10), '-',
    Nat.digitChar (d.day / 10 % 10), Nat.digitChar (d.day % 10)]⟩

/-- Match of the regex `^\d{4}-\d{1,2}$` combined with the rewrite
`f"{year}-{month.zfill(2)}-01"`; `none` when the pattern does not match. -/
def ymOut (s : String) : Option String :=
  match s.data with
  | [a, b, c, d, e, f] =>
    if a.isDigit && b.isDigit && c.isDigit && d.isDigit && e == '-' && f.isDigit then
      some ⟨[a, b, c, d, '-', '0', f, '-', '0', '1']⟩
    else none
  | [a, b, c, d, e, f, g] =>
    if a.isDigit && b.isDigit && c.isDigit && d.isDigit && e == '-' &&
        f.isDigit && g.isDigit then
      some ⟨[a, b, c, d, '-', f, g, '-', '0', '1']⟩
    else none
  | _ => none

/-- Match of the regex `^\d{4}-\d{2}-\d{2}$`. -/
def isYmd (s : String) : Bool :=
  match s.data with
  | [a, b, c, d, e, f, g, h, i, j] =>
    a.isDigit && b.isDigit && c.isDigit && d.isDigit && e == '-' &&
    f.isDigit && g.isDigit && h == '-' && i.isDigit && j.isDigit
  | _ => false

/-- Shallow embedding of `parse_date_to_standard_format`
(`meters/meter_downloader.py` lines 8-55) on string/null cells, parametrized by
the local timezone offset `tz` and by the general parser `g` standing for
`pd.to_datetime(..., errors='coerce')` (`none` for `NaT`). The
Timestamp/datetime-instance branch cannot fire on text cells and is omitted;
for ten-digit epochs `fromtimestamp` raises no `ValueError`/`OSError`. -/
def parse_date_to_standard_format (g : String → Option CivilDate) (tz : Int)
    (v : Option String) : Option String :=
  match v with
  | none => none
  | some raw =>
    if raw = "" then none
    else
      let s := pyStrip raw
      if isTenDigitEpoch s then some (formatCivil (epochToCivil tz (strToNat s)))
      else
        match ymOut s with
        | some r => some r
        | none =>
          if isYmd s then some s
          else (g s).map formatCivil

/-- Column access `df.iloc[:, i]` restricted to one row: an out-of-range index
raises `IndexError`, modeled as `Except.error`. -/
def cellAt (row : List Value) (i : Nat) : Except Unit Value :=
  if h : i < row.length then .ok (row.get ⟨i, h⟩) else .error ()

/-- Error-propagating construction of one record per sheet row. pandas binds
whole columns at once; on the rectangular frames it produces, a missing column
index fails the binding for every row alike, so the first failure aborts the
whole mapping exactly as the column-wise code does. -/
def mapRows (f : List Value → Except Unit Row) :
    List (List Value) → Except Unit (List Row)
  | [] => .ok []
  | row :: rest => do
    let r ← f row
    let rs ← mapRows f rest
    .ok (r :: rs)

/-- Main column mapping of `modules/battery_downloader.py` (lines 45-92):
fixed source indices 0, 2, 3, 4, 5, 6, 8, 9, 10, 14, 15, the shared
`current_time` value `t`, and the identifier from the mapped manufacturer and
model cells. -/
def batteryRowMain (t : String) (row : List Value) : Except Unit Row := do
  let man ← cellAt row 0
  let modelNumber ← cellAt row 2
  let chem ← cellAt row 3
  let desc ← cellAt row 4
  let cert ← cellAt row 5
  let certDate ← cellAt row 6
  let cap ← cellAt row 8
  let dis ← cellAt row 9
  let eff ← cellAt row 10
  let listing ← cellAt row 14
  let lastUpd ← cellAt row 15
  .ok { id := pyStr man ++ "_" ++ pyStr modelNumber,
        fields := [("Manufacturer", man), ("Model Number", modelNumber),
                   ("Chemistry", chem), ("Description", desc),
                   ("Certifying Entity", cert), ("Certificate Date", certDate),
                   ("Capacity (kWh)", cap), ("Discharge Rate (kW)", dis),
                   ("Round Trip Efficiency (%)", eff),
                   ("Battery Listing Date", listing), ("Last Update", lastUpd),
                   ("Date Added to Tool", some t)] }

/-- Fallback column mapping of `modules/battery_downloader.py` (lines 94-110):
the reduced field set drops `Certifying Entity` and `Certificate Date` but binds
the same source indices 0, 2, 3, 4, 8, 9, 10, 14, 15 and reuses the same
`current_time` value `t`. -/
def batteryRowFallback (t : String) (row : List Value) : Except Unit Row := do
  let man ← cellAt row 0
  let modelNumber ← cellAt row 2
  let chem ← cellAt row 3
  let desc ← cellAt row 4
  let cap ← cellAt row 8
  let dis ← cellAt row 9
  let eff ← cellAt row 10
  let listing ← cellAt row 14
  let lastUpd ← cellAt row 15
  .ok { id := pyStr man ++ "_" ++ pyStr modelNumber,
        fields := [("Manufacturer", man), ("Model Number", modelNumber),
                   ("Chemistry", chem), ("Description", desc),
                   ("Capacity (kWh)", cap), ("Discharge Rate (kW)", dis),
                   ("Round Trip Efficiency (%)", eff),
                   ("Battery Listing Date", listing), ("Last Update", lastUpd),
                   ("Date Added to Tool", some t)] }

/-- The battery normalizer's try/except: the main mapping, and on any binding
error the fallback mapping (whose own error propagates and aborts the run). -/
def batteryNormalize (t : String) (sheet : List (List Value)) :
    Except Unit (List Row) :=
  match mapRows (batteryRowMain t) sheet with
  | .ok out => .ok out
  | .error _ => mapRows (batteryRowFallback t) sheet

/-- Main column mapping of `meters/meter_downloader.py` (lines 89-124): fixed
source indices 0, 1, 2, 3, 4, 8, 9 with date normalization applied to columns
8 and 9, the shared `current_time` value `t`, and the identifier from the
mapped manufacturer and model cells. -/
def meterRowMain (g : String → Option CivilDate) (tz : Int) (t : String)
    (row : List Value) : Except Unit Row := do
  let man ← cellAt row 0
  let modelNumber ← cellAt row 1
  let disp ← cellAt row 2
  let pbi ← cellAt row 3
  let note ← cellAt row 4
  let listing ← cellAt row 8
  let lastUpd ← cellAt row 9
  .ok { id := pyStr man ++ "_" ++ pyStr modelNumber,
        fields := [("Manufacturer", man), ("Model Number", modelNumber),
                   ("Display Type", disp), ("PBI Meter", pbi), ("Note", note),
                   ("Meter Listing Date", parse_date_to_standard_format g tz listing),
                   ("Last Update", parse_date_to_standard_format g tz lastUpd),
                   ("Date Added to Tool", some t)] }

/-- Fallback column mapping of `meters/meter_downloader.py` (lines 126-143):
the except-branch repeats the identical bindings of the main mapping, the same
source indices included. -/
def meterRowFallback (g : String → Option CivilDate) (tz : Int) (t : String)
    (row : List Value) : Except Unit Row :=
  meterRowMain g tz t row

/-- The meter normalizer's try/except around the column mapping. -/
def meterNormalize (g : String → Option CivilDate) (tz : Int) (t : String)
    (sheet : List (List Value)) : Except Unit (List Row) :=
  match mapRows (meterRowMain g tz t) sheet with
  | .ok out => .ok out
  | .error _ => mapRows (meterRowFallback g tz t) sheet


/-! ### Helper lemmas about the upsert engine -/

theorem insertRows_extends (rows : List Row) :
    ∀ t, ∃ ext, (insertRows t rows).1 = t ++ ext := by
  induction rows with
  | nil => exact fun t => ⟨[], by simp [insertRows]⟩
  | cons r rs ih =>
    intro t
    by_cases h : r.id ∈ tableIds t
    · obtain ⟨ext, hx⟩ := ih t
      exact ⟨ext, by simp [insertRows, h, hx]⟩
    · obtain ⟨ext, hx⟩ := ih (t ++ [r])
      exact ⟨r :: ext, by simp [insertRows, h, hx]⟩

theorem insertRows_count (rows : List Row) :
    ∀ t, (insertRows t rows).1.length = t.length + (insertRows t rows).2 := by
  induction rows with
  | nil => intro t; simp [insertRows]
  | cons r rs ih =>
    intro t
    by_cases h : r.id ∈ tableIds t
    · simpa [insertRows, h] using ih t
    · have := ih (t ++ [r])
      simp [insertRows, h] at this ⊢
      omega

theorem insertRows_of_disjoint (rows : List Row) :
    ∀ t, (rows.map Row.id).Nodup → (∀ r ∈ rows, r.id ∉ tableIds t) →
      insertRows t rows = (t ++ rows, rows.length) := by
  induction rows with
  | nil => intro t _ _; simp [insertRows]
  | cons r rs ih =>
    intro t hN hdis
    rw [List.map_cons, List.nodup_cons] at hN
    have hnc : r.id ∉ tableIds t := hdis r (by simp)
    have hdis' : ∀ x ∈ rs, x.id ∉ tableIds (t ++ [r]) := by
      intro x hx
      have h1 : x.id ∉ tableIds t := hdis x (by simp [hx])
      have h2 : x.id ≠ r.id := by
        intro he
        exact hN.1 (he ▸ List.mem_map_of_mem Row.id hx)
      simp only [tableIds, List.map_append, List.map_cons, List.map_nil, List.mem_append,
        List.mem_singleton] at h1 ⊢
      exact fun hc => hc.elim h1 h2
    have := ih (t ++ [r]) hN.2 hdis'
    simp [insertRows, hnc, this]

theorem applyUpdateT_ids (t : List Row) (r : Row) :
    (applyUpdateT t r).map Row.id = t.map Row.id := by
  unfold applyUpdateT
  rw [List.map_map]
  apply List.map_congr_left
  intro e _
  by_cases h : e.id = r.id <;> simp [Function.comp, h]

theorem updateAll_ids (rows : List Row) :
    ∀ t, ((updateAll t rows).1).map Row.id = t.map Row.id := by
  induction rows with
  | nil => intro t; simp [updateAll]
  | cons r rs ih =>
    intro t
    have := ih (applyUpdateT t r)
    simpa [updateAll, applyUpdateT_ids] using this

theorem updateAll_len (rows t : List Row) :
    (updateAll t rows).1.length = t.length := by
  have := congrArg List.length (updateAll_ids rows t)
  simpa using this

theorem updateAll_mem_of_notin (rows : List Row) :
    ∀ t e, e ∈ t → e.id ∉ rows.map Row.id → e ∈ (updateAll t rows).1 := by
  induction rows with
  | nil => intro t e he _; simpa [updateAll] using he
  | cons r rs ih =>
    intro t e he hni
    simp only [List.map_cons, List.mem_cons, not_or] at hni
    have he' : e ∈ applyUpdateT t r := by
      have := List.mem_map_of_mem
        (fun x => if x.id = r.id then Row.mk x.id r.fields else x) he
      simpa [applyUpdateT, hni.1] using this
    simpa [updateAll] using ih (applyUpdateT t r) e he' hni.2

theorem updateAll_overwrite_mem (rows : List Row) :
    ∀ t e r, (rows.map Row.id).Nodup → e ∈ t → r ∈ rows → r.id = e.id →
      Row.mk e.id r.fields ∈ (updateAll t rows).1 := by
  induction rows with
  | nil => intro t e r _ _ hr _; cases hr
  | cons r0 rs ih =>
    intro t e r hN he hr hid
    rw [List.map_cons, List.nodup_cons] at hN
    rcases List.mem_cons.mp hr with h | h
    · subst h
      have hmem : Row.mk e.id r.fields ∈ applyUpdateT t r := by
        have := List.mem_map_of_mem
          (fun x => if x.id = r.id then Row.mk x.id r.fields else x) he
        simpa [applyUpdateT, hid.symm] using this
      have hni : e.id ∉ rs.map Row.id := hid ▸ hN.1
      have := updateAll_mem_of_notin rs (applyUpdateT t r) (Row.mk e.id r.fields) hmem hni
      simpa [updateAll] using this
    · have he' : (fun x => if x.id = r0.id then Row.mk x.id r0.fields else x) e
          ∈ applyUpdateT t r0 :=
        List.mem_map_of_mem _ he
      have hide : ((fun x => if x.id = r0.id then Row.mk x.id r0.fields else x) e).id = e.id := by
        by_cases hc : e.id = r0.id <;> simp [hc]
      have := ih (applyUpdateT t r0) _ r hN.2 he' h (by rw [hide]; exact hid)
      rw [hide] at this
      simpa [updateAll] using this

theorem updateAll_id_surviving (rows t : List Row) (e : Row) (he : e ∈ t) :
    ∃ x ∈ (updateAll t rows).1, x.id = e.id := by
  have : e.id ∈ ((updateAll t rows).1).map Row.id := by
    rw [updateAll_ids]
    exact List.mem_map_of_mem Row.id he
  obtain ⟨x, hx, hxe⟩ := List.mem_map.mp this
  exact ⟨x, hx, hxe⟩

theorem applyUpdateT_self (t : List Row) (r : Row)
    (hN : (t.map Row.id).Nodup) (hr : r ∈ t) : applyUpdateT t r = t := by
  unfold applyUpdateT
  have h : ∀ e ∈ t, (if e.id = r.id then Row.mk e.id r.fields else e) = id e := by
    intro e he
    by_cases h : e.id = r.id
    · have : e = r := List.inj_on_of_nodup_map hN he hr h
      subst this; simp
    · simp [h]
  rw [List.map_congr_left h, List.map_id]

theorem filter_id_singleton (t : List Row) (r : Row)
    (hN : (t.map Row.id).Nodup) (hr : r ∈ t) :
    (t.filter fun e => e.id = r.id) = [r] := by
  induction t with
  | nil => cases hr
  | cons a t ih =>
    rw [List.map_cons, List.nodup_cons] at hN
    rcases List.mem_cons.mp hr with h | h
    · subst h
      have hnone : ∀ e ∈ t, ¬ (e.id = r.id) := by
        intro e he heq
        exact hN.1 (heq ▸ List.mem_map_of_mem Row.id he)
      have hnil : List.filter (fun e => decide (e.id = r.id)) t = [] := by
        rw [List.filter_eq_nil_iff]
        simpa using hnone
      simp [List.filter_cons, hnil]
    · have hne : ¬ (a.id = r.id) := by
        intro he
        exact hN.1 (he ▸ List.mem_map_of_mem Row.id h)
      simp [List.filter_cons, hne, ih hN.2 h]

theorem updateAll_fixed (rows : List Row) :
    ∀ t, (t.map Row.id).Nodup → (∀ r ∈ rows, r ∈ t) →
      updateAll t rows = (t, rows.length) := by
  induction rows with
  | nil => intro t _ _; rfl
  | cons r rs ih =>
    intro t hN hsub
    have h1 : applyUpdateT t r = t := applyUpdateT_self t r hN (hsub r (by simp))
    have h2 : applyUpdateC t r = 1 := by
      unfold applyUpdateC
      rw [filter_id_singleton t r hN (hsub r (by simp))]
      rfl
    have h3 := ih t hN (fun x hx => hsub x (by simp [hx]))
    simp [updateAll, h1, h2, h3, Nat.add_comm]

theorem upsert_preserves_ids (existing incoming : List Row) (e : Row)
    (he : e ∈ existing) :
    ∃ x ∈ (upsertExisting existing incoming).1, x.id = e.id := by
  obtain ⟨ext, hx⟩ := insertRows_extends (dfSplit incoming (tableIds existing)).1 existing
  have he' : e ∈ (insertRows existing (dfSplit incoming (tableIds existing)).1).1 := by
    rw [hx]
    exact List.mem_append_left _ he
  exact updateAll_id_surviving (dfSplit incoming (tableIds existing)).2 _ e he'

theorem upsert_frame (existing incoming : List Row) (e : Row)
    (he : e ∈ existing) (hni : e.id ∉ incoming.map Row.id) :
    e ∈ (upsertExisting existing incoming).1 := by
  obtain ⟨ext, hx⟩ := insertRows_extends (dfSplit incoming (tableIds existing)).1 existing
  have he' : e ∈ (insertRows existing (dfSplit incoming (tableIds existing)).1).1 := by
    rw [hx]
    exact List.mem_append_left _ he
  have hni' : e.id ∉ (dfSplit incoming (tableIds existing)).2.map Row.id := by
    intro hmem
    obtain ⟨x, hx2, hxe⟩ := List.mem_map.mp hmem
    have hxin : x ∈ incoming := by
      have := (List.mem_filter.mp hx2).1
      exact this
    exact hni (hxe ▸ List.mem_map_of_mem Row.id hxin)
  exact updateAll_mem_of_notin (dfSplit incoming (tableIds existing)).2 _ e he' hni'

theorem upsert_overwrite (existing incoming : List Row) (e r : Row)
    (hN : (incoming.map Row.id).Nodup) (he : e ∈ existing) (hr : r ∈ incoming)
    (hid : r.id = e.id) :
    Row.mk e.id r.fields ∈ (upsertExisting existing incoming).1 := by
  have hmemid : r.id ∈ tableIds existing := by
    rw [hid]
    exact List.mem_map_of_mem Row.id he
  have hrU : r ∈ (dfSplit incoming (tableIds existing)).2 := by
    have : r ∈ incoming.filter fun x => (tableIds existing).contains x.id :=
      List.mem_filter.mpr ⟨hr, by simpa using hmemid⟩
    exact this
  have hNU : ((dfSplit incoming (tableIds existing)).2.map Row.id).Nodup := by
    have hs : List.Sublist ((dfSplit incoming (tableIds existing)).2) incoming :=
      List.filter_sublist incoming
    exact (hs.map Row.id).nodup hN
  obtain ⟨ext, hx⟩ := insertRows_extends (dfSplit incoming (tableIds existing)).1 existing
  have he' : e ∈ (insertRows existing (dfSplit incoming (tableIds existing)).1).1 := by
    rw [hx]
    exact List.mem_append_left _ he
  exact updateAll_overwrite_mem (dfSplit incoming (tableIds existing)).2 _ e r hNU he' hrU hid

theorem upsert_len (existing incoming : List Row) :
    (upsertExisting existing incoming).1.length
      = existing.length + (upsertExisting existing incoming).2.1 := by
  show (updateAll (insertRows existing (dfSplit incoming (tableIds existing)).1).1
      (dfSplit incoming (tableIds existing)).2).1.length
    = existing.length + (insertRows existing (dfSplit incoming (tableIds existing)).1).2
  rw [updateAll_len, insertRows_count]

theorem bulkCreate_of_nodup (incoming : List Row)
    (hN : (incoming.map Row.id).Nodup) :
    bulkCreate incoming = (incoming, incoming.length) := by
  unfold bulkCreate
  have := insertRows_of_disjoint incoming [] hN (by intro r _; simp [tableIds])
  simpa using this

theorem upsertExisting_self (incoming : List Row)
    (hN : (incoming.map Row.id).Nodup) :
    upsertExisting incoming incoming = (incoming, 0, incoming.length) := by
  have hnew : (incoming.filter fun r => !((tableIds incoming).contains r.id)) = [] := by
    rw [List.filter_eq_nil_iff]
    intro r hr
    have : r.id ∈ tableIds incoming := List.mem_map_of_mem Row.id hr
    simp [this]
  have hupd : (incoming.filter fun r => (tableIds incoming).contains r.id) = incoming := by
    rw [List.filter_eq_self]
    intro r hr
    have : r.id ∈ tableIds incoming := List.mem_map_of_mem Row.id hr
    simpa using this
  have hfix := updateAll_fixed incoming incoming hN (fun r hr => hr)
  show (let s := dfSplit incoming (tableIds incoming)
        let ins := insertRows incoming s.1
        let upd := updateAll ins.1 s.2
        (upd.1, ins.2, upd.2)) = (incoming, 0, incoming.length)
  simp only [dfSplit, hnew, hupd]
  simp [insertRows, hfix]

/-! ### Claim theorems -/

/-- Claim C2 (confirmed): for every incoming batch and every prior identifier
list, the split into `df_new` and `df_update` is a partition of the incoming
batch — their concatenation is a permutation of `incoming`, no row lies in
both parts, and membership of each incoming row is decided solely by whether
its identifier occurs in the prior table. -/
theorem c2_partition_complete (incoming : List Row) (ids : List String) :
    List.Perm ((dfSplit incoming ids).1 ++ (dfSplit incoming ids).2) incoming
    ∧ (∀ r, ¬ (r ∈ (dfSplit incoming ids).1 ∧ r ∈ (dfSplit incoming ids).2))
    ∧ (∀ r ∈ incoming,
        (r ∈ (dfSplit incoming ids).1 ↔ r.id ∉ ids)
        ∧ (r ∈ (dfSplit incoming ids).2 ↔ r.id ∈ ids)) := by
  refine ⟨?_, ?_, ?_⟩
  · have h := List.filter_append_perm (fun r => ids.contains r.id) incoming
    exact List.Perm.trans List.perm_append_comm h
  · rintro r ⟨h1, h2⟩
    have hb1 := (List.mem_filter.mp h1).2
    have hb2 := (List.mem_filter.mp h2).2
    simp at hb1 hb2
    exact hb1 hb2
  · intro r hr
    constructor
    · constructor
      · intro h
        have := (List.mem_filter.mp h).2
        simpa using this
      · intro h
        exact List.mem_filter.mpr ⟨hr, by simpa using h⟩
    · constructor
      · intro h
        have := (List.mem_filter.mp h).2
        simpa using this
      · intro h
        exact List.mem_filter.mpr ⟨hr, by simpa using h⟩

/-- Witness for C2 at a concrete batch: the row with identifier `A_1` lands in
`df_new` when the prior table only knows `B_2`. -/
theorem c2_witness :
    Row.mk "A_1" [] ∈ (dfSplit [Row.mk "A_1" []] ["B_2"]).1 :=
  ((c2_partition_complete [Row.mk "A_1" []] ["B_2"]).2.2 (Row.mk "A_1" [])
    (by simp)).1.mpr (by decide)

/-- Claim C3 (code bug): on the pv bulk-create path two incoming rows sharing
identifier `A_1` collapse to one surviving row with inserted = 1, as the claim
states; but the meters path stores both duplicate rows and reports
inserted = 2, because `to_sql(if_exists='replace')` drops the freshly created
PRIMARY KEY table and recreates it without any key, contradicting the script's
own stated intent of a `meter_id` primary key. -/
theorem c3_duplicate_identifier_eval :
    ((pvModulesIngest [Row.mk "A_1" [("f", some "v1")], Row.mk "A_1" [("f", some "v2")]]
        none).1.rows = [Row.mk "A_1" [("f", some "v1")]]
      ∧ (pvModulesIngest [Row.mk "A_1" [("f", some "v1")], Row.mk "A_1" [("f", some "v2")]]
          none).2.1 = 1)
    ∧ ((metersIngest [Row.mk "A_1" [("f", some "v1")], Row.mk "A_1" [("f", some "v2")]]
        none).1.rows = [Row.mk "A_1" [("f", some "v1")], Row.mk "A_1" [("f", some "v2")]]
      ∧ (metersIngest [Row.mk "A_1" [("f", some "v1")], Row.mk "A_1" [("f", some "v2")]]
          none).2.1 = 2) := by
  decide

/-- Counterexample to Claim C5 as stated: the batteries table is dropped and
recreated even though its schema has the identifier column (`hasIdCol = true`);
the previously persisted row `X_9` does not survive the run. -/
theorem c5_counterexample :
    (batteriesIngest [Row.mk "A_1" []]
        (some (Table.mk true [Row.mk "X_9" [("f", some "keep")]]))).1.rows
      = [Row.mk "A_1" []]
    ∧ Row.mk "X_9" [("f", some "keep")]
        ∉ (batteriesIngest [Row.mk "A_1" []]
            (some (Table.mk true [Row.mk "X_9" [("f", some "keep")]]))).1.rows := by
  decide

/-- Claim C5 (amended): only the pv_modules/inverters scripts make the drop
conditional on the identifier-column probe — with the column present they take
the upsert branch and every previously stored identifier survives, and with it
absent they rebuild from the incoming frame; the batteries (and meters,
energy_storage) script unconditionally replaces the table with the incoming
frame on every run. -/
theorem c5_amended_drop_policy (incoming rows : List Row) (tb : Option Table) :
    (pvModulesIngest incoming (some (Table.mk true rows))
        = ((Table.mk true (upsertExisting rows incoming).1),
            (upsertExisting rows incoming).2.1, (upsertExisting rows incoming).2.2))
    ∧ (∀ e ∈ rows,
        ∃ x ∈ (pvModulesIngest incoming (some (Table.mk true rows))).1.rows, x.id = e.id)
    ∧ ((pvModulesIngest incoming (some (Table.mk false rows))).1.rows
        = (bulkCreate incoming).1)
    ∧ ((batteriesIngest incoming tb).1.rows = incoming) := by
  refine ⟨rfl, ?_, rfl, rfl⟩
  intro e he
  exact upsert_preserves_ids rows incoming e he

/-- Witness for C5 (amended) at a concrete table: the stored identifier `B_2`
survives an upsert-path run over the one-row batch `A_1`. -/
theorem c5_witness :
    ∃ x ∈ (pvModulesIngest [Row.mk "A_1" []]
        (some (Table.mk true [Row.mk "B_2" []]))).1.rows, x.id = "B_2" :=
  (c5_amended_drop_policy [Row.mk "A_1" []] [Row.mk "B_2" []] none).2.1
    (Row.mk "B_2" []) (by simp)

/-- Claim C6 (confirmed): the record identifier is exactly the stringification
of the manufacturer cell, an underscore, and the stringification of the model
cell; it is a total function of the record and depends only on that pair —
any change or reordering of the remaining fields leaves it unchanged. -/
theorem c6_identifier_contract :
    (∀ r : SourceRow, identifier r = pyStr r.manufacturer ++ "_" ++ pyStr r.model)
    ∧ (∀ m mo (others others' : List (String × Value)),
        identifier (SourceRow.mk m mo others) = identifier (SourceRow.mk m mo others')) :=
  ⟨fun _ => rfl, fun _ _ _ _ => rfl⟩

/-- Claim C9 (confirmed): on a non-200 HTTP status every category run aborts
with the download error before touching the database, so the persisted table
is exactly the one from before the run. -/
theorem c9_fetch_failure_no_mutation
    (ingest : List Row → Option Table → Table × Nat × Nat)
    (status : Nat) (incoming : List Row) (db : Option Table)
    (h : status ≠ 200) :
    runCategory ingest status incoming db
      = (db, Except.error "Failed to download file") := by
  simp [runCategory, h]

/-- Witness for C9: a 404 status for the pv_modules category leaves an absent
table absent and reports the failure. -/
theorem c9_witness :
    runCategory pvModulesIngest 404 [Row.mk "A_1" []] none
      = (none, Except.error "Failed to download file") :=
  c9_fetch_failure_no_mutation pvModulesIngest 404 [Row.mk "A_1" []] none (by decide)

/-- Counterexample to Claim C1 as stated: (i) a second meters run over an
unchanged one-row source reports inserted = 1, not 0; (ii) a second pv run
whose normalization timestamp differs changes the catalog content, since
`Date Added to Tool` is overwritten on every matched row; (iii) with duplicate
identifiers in the source, the second pv run replaces the first-occurrence
survivor by the last duplicate, so even the identifier-keyed content changes. -/
theorem c1_counterexample :
    ((metersIngest [Row.mk "A_1" []] (some (metersIngest [Row.mk "A_1" []] none).1)).2.1 = 1)
    ∧ ((pvModulesIngest
          ([SourceRow.mk (some "A") (some "1") []].map (normalizeRow "2024-01-02 00:00:00"))
          (some (pvModulesIngest
            ([SourceRow.mk (some "A") (some "1") []].map (normalizeRow "2024-01-01 00:00:00"))
            none).1)).1.rows
        ≠ (pvModulesIngest
            ([SourceRow.mk (some "A") (some "1") []].map (normalizeRow "2024-01-01 00:00:00"))
            none).1.rows)
    ∧ ((pvModulesIngest [Row.mk "A_1" [("f", some "v1")], Row.mk "A_1" [("f", some "v2")]]
          (some (pvModulesIngest
            [Row.mk "A_1" [("f", some "v1")], Row.mk "A_1" [("f", some "v2")]] none).1)).1.rows
        ≠ (pvModulesIngest
            [Row.mk "A_1" [("f", some "v1")], Row.mk "A_1" [("f", some "v2")]] none).1.rows) := by
  decide

/-- Claim C1 (amended): against an unchanged source, with the same
normalization timestamp on both runs and no duplicate identifiers in the batch,
the second run leaves the catalog rows identical to the first run; the second
run reports inserted = 0 and updated = len(rows) on the upsert-path categories
(pv_modules, inverters), while the drop-and-recreate categories (meters,
batteries, energy_storage) report inserted = len(rows) and updated = 0. -/
theorem c1_second_run_amended (src : List SourceRow) (ts : String)
    (hN : ((src.map (normalizeRow ts)).map Row.id).Nodup) :
    ((pvModulesIngest (src.map (normalizeRow ts))
        (some (pvModulesIngest (src.map (normalizeRow ts)) none).1)).1.rows
      = (pvModulesIngest (src.map (normalizeRow ts)) none).1.rows)
    ∧ ((pvModulesIngest (src.map (normalizeRow ts))
        (some (pvModulesIngest (src.map (normalizeRow ts)) none).1)).2.1 = 0)
    ∧ ((pvModulesIngest (src.map (normalizeRow ts))
        (some (pvModulesIngest (src.map (normalizeRow ts)) none).1)).2.2
      = (src.map (normalizeRow ts)).length)
    ∧ ((metersIngest (src.map (normalizeRow ts))
        (some (metersIngest (src.map (normalizeRow ts)) none).1)).1.rows
      = (metersIngest (src.map (normalizeRow ts)) none).1.rows)
    ∧ ((metersIngest (src.map (normalizeRow ts))
        (some (metersIngest (src.map (normalizeRow ts)) none).1)).2.1
      = (src.map (normalizeRow ts)).length)
    ∧ ((metersIngest (src.map (normalizeRow ts))
        (some (metersIngest (src.map (normalizeRow ts)) none).1)).2.2 = 0) := by
  have h1 : pvModulesIngest (src.map (normalizeRow ts)) none
      = (Table.mk true (src.map (normalizeRow ts)), (src.map (normalizeRow ts)).length, 0) := by
    show upsertIngest _ none = _
    simp [upsertIngest, bulkCreate_of_nodup _ hN]
  have h2 : pvModulesIngest (src.map (normalizeRow ts))
      (some (Table.mk true (src.map (normalizeRow ts))))
      = (Table.mk true (src.map (normalizeRow ts)), 0, (src.map (normalizeRow ts)).length) := by
    show upsertIngest _ _ = _
    simp [upsertIngest, upsertExisting_self _ hN]
  rw [h1]
  rw [h2]
  exact ⟨rfl, rfl, rfl, rfl, rfl, rfl⟩

/-- Witness for C1 (amended) at a one-row source: the second pv run inserts
nothing and updates the one row. -/
theorem c1_witness :
    ((pvModulesIngest
        ([SourceRow.mk (some "A") (some "1") []].map (normalizeRow "2024-01-01 00:00:00"))
        (some (pvModulesIngest
          ([SourceRow.mk (some "A") (some "1") []].map (normalizeRow "2024-01-01 00:00:00"))
          none).1)).2.1 = 0)
    ∧ ((pvModulesIngest
        ([SourceRow.mk (some "A") (some "1") []].map (normalizeRow "2024-01-01 00:00:00"))
        (some (pvModulesIngest
          ([SourceRow.mk (some "A") (some "1") []].map (normalizeRow "2024-01-01 00:00:00"))
          none).1)).2.2
      = ([SourceRow.mk (some "A") (some "1") []].map
          (normalizeRow "2024-01-01 00:00:00")).length) :=
  ⟨(c1_second_run_amended [SourceRow.mk (some "A") (some "1") []]
      "2024-01-01 00:00:00" (by decide)).2.1,
   (c1_second_run_amended [SourceRow.mk (some "A") (some "1") []]
      "2024-01-01 00:00:00" (by decide)).2.2.1⟩

/-- Claim C4 (confirmed): on the upsert path, every existing row whose
identifier does not occur in the incoming batch survives unchanged; every
existing row matched by an incoming row reappears with all of its non-key
columns replaced wholesale by the incoming values (null values included, since
`fields` entries carry `Option` values); no existing identifier is ever
deleted; and the table only grows by the inserted count. -/
theorem c4_full_overwrite_and_frame (existing incoming : List Row)
    (hN : (incoming.map Row.id).Nodup) :
    (∀ e ∈ existing, e.id ∉ incoming.map Row.id →
        e ∈ (upsertExisting existing incoming).1)
    ∧ (∀ e ∈ existing, ∀ r ∈ incoming, r.id = e.id →
        Row.mk e.id r.fields ∈ (upsertExisting existing incoming).1)
    ∧ (∀ e ∈ existing, ∃ x ∈ (upsertExisting existing incoming).1, x.id = e.id)
    ∧ ((upsertExisting existing incoming).1.length
        = existing.length + (upsertExisting existing incoming).2.1) := by
  refine ⟨?_, ?_, ?_, upsert_len existing incoming⟩
  · intro e he hni
    exact upsert_frame existing incoming e he hni
  · intro e he r hr hid
    exact upsert_overwrite existing incoming e r hN he hr hid
  · intro e he
    exact upsert_preserves_ids existing incoming e he

/-- Witness for C4 at a concrete table: the matched row `A_1` reappears with
its non-key column overwritten to null. -/
theorem c4_witness :
    Row.mk "A_1" [("f", (none : Option String))]
      ∈ (upsertExisting
          [Row.mk "A_1" [("f", some "old")], Row.mk "B_2" [("g", some "keep")]]
          [Row.mk "A_1" [("f", none)]]).1 :=
  (c4_full_overwrite_and_frame
      [Row.mk "A_1" [("f", some "old")], Row.mk "B_2" [("g", some "keep")]]
      [Row.mk "A_1" [("f", none)]] (by decide)).2.1
    (Row.mk "A_1" [("f", some "old")]) (by simp)
    (Row.mk "A_1" [("f", none)]) (by simp) rfl

/-! ### Helper lemmas about the normalizers -/

theorem except_bind_ok {α β : Type} {x : Except Unit α} {f : α → Except Unit β} {b : β}
    (h : x >>= f = .ok b) : ∃ a, x = .ok a ∧ f a = .ok b := by
  cases x with
  | error e => simp [Bind.bind, Except.bind] at h
  | ok a => exact ⟨a, rfl, by simpa [Bind.bind, Except.bind] using h⟩

theorem except_unit_error {α : Type} (x : Except Unit α) (h : ∀ r, x ≠ .ok r) :
    x = .error () := by
  cases x with
  | error e => rfl
  | ok a => exact absurd rfl (h a)

theorem cellAt_ok (row : List Value) (i : Nat) (h : i < row.length) :
    cellAt row i = .ok (row.get ⟨i, h⟩) := dif_pos h

theorem mapRows_ok_mem (f : List Value → Except Unit Row) :
    ∀ sheet out, mapRows f sheet = .ok out →
      ∀ r ∈ out, ∃ row ∈ sheet, f row = .ok r := by
  intro sheet
  induction sheet with
  | nil =>
    intro out h r hr
    simp [mapRows] at h
    subst h
    cases hr
  | cons row rest ih =>
    intro out h r hr
    unfold mapRows at h
    obtain ⟨a, ha, h⟩ := except_bind_ok h
    obtain ⟨as, has, h⟩ := except_bind_ok h
    injection h with h
    subst h
    rcases List.mem_cons.mp hr with h | h
    · exact ⟨row, by simp, h ▸ ha⟩
    · obtain ⟨row', hrow', hf⟩ := ih as has r h
      exact ⟨row', by simp [hrow'], hf⟩

theorem mapRows_ok_of_all (f : List Value → Except Unit Row) :
    ∀ sheet, (∀ row ∈ sheet, ∃ r, f row = .ok r) →
      ∃ out, mapRows f sheet = .ok out ∧ out.length = sheet.length := by
  intro sheet
  induction sheet with
  | nil => exact fun _ => ⟨[], rfl, rfl⟩
  | cons row rest ih =>
    intro hall
    obtain ⟨r, hr⟩ := hall row (by simp)
    obtain ⟨out, hout, hlen⟩ := ih (fun x hx => hall x (by simp [hx]))
    refine ⟨r :: out, ?_, by simp [hlen]⟩
    unfold mapRows
    rw [hr, hout]
    rfl

theorem mapRows_error_of_mem (f : List Value → Except Unit Row) :
    ∀ sheet row, row ∈ sheet → f row = .error () →
      mapRows f sheet = .error () := by
  intro sheet
  induction sheet with
  | nil => intro row h; cases h
  | cons a rest ih =>
    intro row hrow hferr
    rcases List.mem_cons.mp hrow with h | h
    · unfold mapRows
      rw [h] at hferr
      rw [hferr]
      rfl
    · cases hfa : f a with
      | error e =>
        unfold mapRows
        rw [hfa]
        rfl
      | ok r =>
        unfold mapRows
        rw [hfa, ih row h hferr]
        rfl

theorem batteryRowMain_ok_length (t : String) (row : List Value) (r : Row)
    (h : batteryRowMain t row = .ok r) : 16 ≤ row.length := by
  unfold batteryRowMain at h
  obtain ⟨a1, h1, h⟩ := except_bind_ok h
  obtain ⟨a2, h2, h⟩ := except_bind_ok h
  obtain ⟨a3, h3, h⟩ := except_bind_ok h
  obtain ⟨a4, h4, h⟩ := except_bind_ok h
  obtain ⟨a5, h5, h⟩ := except_bind_ok h
  obtain ⟨a6, h6, h⟩ := except_bind_ok h
  obtain ⟨a7, h7, h⟩ := except_bind_ok h
  obtain ⟨a8, h8, h⟩ := except_bind_ok h
  obtain ⟨a9, h9, h⟩ := except_bind_ok h
  obtain ⟨a10, h10, h⟩ := except_bind_ok h
  obtain ⟨a11, h11, h⟩ := except_bind_ok h
  by_contra hlt
  unfold cellAt at h11
  rw [dif_neg (by omega)] at h11
  cases h11

theorem batteryRowMain_date (t : String) (row : List Value) (r : Row)
    (h : batteryRowMain t row = .ok r) :
    ("Date Added to Tool", some t) ∈ r.fields := by
  unfold batteryRowMain at h
  obtain ⟨a1, h1, h⟩ := except_bind_ok h
  obtain ⟨a2, h2, h⟩ := except_bind_ok h
  obtain ⟨a3, h3, h⟩ := except_bind_ok h
  obtain ⟨a4, h4, h⟩ := except_bind_ok h
  obtain ⟨a5, h5, h⟩ := except_bind_ok h
  obtain ⟨a6, h6, h⟩ := except_bind_ok h
  obtain ⟨a7, h7, h⟩ := except_bind_ok h
  obtain ⟨a8, h8, h⟩ := except_bind_ok h
  obtain ⟨a9, h9, h⟩ := except_bind_ok h
  obtain ⟨a10, h10, h⟩ := except_bind_ok h
  obtain ⟨a11, h11, h⟩ := except_bind_ok h
  injection h with h
  subst h
  simp

theorem batteryRowMain_ok_of_len (t : String) (row : List Value) (h : 16 ≤ row.length) :
    ∃ r, batteryRowMain t row = .ok r := by
  cases hv : batteryRowMain t row with
  | ok r => exact ⟨r, rfl⟩
  | error e =>
    exfalso
    unfold batteryRowMain at hv
    rw [cellAt_ok row 0 (by omega),
    cellAt_ok row 2 (by omega),
    cellAt_ok row 3 (by omega),
    cellAt_ok row 4 (by omega),
    cellAt_ok row 5 (by omega),
    cellAt_ok row 6 (by omega),
    cellAt_ok row 8 (by omega),
    cellAt_ok row 9 (by omega),
    cellAt_ok row 10 (by omega),
    cellAt_ok row 14 (by omega),
    cellAt_ok row 15 (by omega)] at hv
    simp [Bind.bind, Except.bind] at hv

theorem batteryRowFallback_ok_length (t : String) (row : List Value) (r : Row)
    (h : batteryRowFallback t row = .ok r) : 16 ≤ row.length := by
  unfold batteryRowFallback at h
  obtain ⟨a1, h1, h⟩ := except_bind_ok h
  obtain ⟨a2, h2, h⟩ := except_bind_ok h
  obtain ⟨a3, h3, h⟩ := except_bind_ok h
  obtain ⟨a4, h4, h⟩ := except_bind_ok h
  obtain ⟨a5, h5, h⟩ := except_bind_ok h
  obtain ⟨a6, h6, h⟩ := except_bind_ok h
  obtain ⟨a7, h7, h⟩ := except_bind_ok h
  obtain ⟨a8, h8, h⟩ := except_bind_ok h
  obtain ⟨a9, h9, h⟩ := except_bind_ok h
  by_contra hlt
  unfold cellAt at h9
  rw [dif_neg (by omega)] at h9
  cases h9

theorem batteryRowFallback_date (t : String) (row : List Value) (r : Row)
    (h : batteryRowFallback t row = .ok r) :
    ("Date Added to Tool", some t) ∈ r.fields := by
  unfold batteryRowFallback at h
  obtain ⟨a1, h1, h⟩ := except_bind_ok h
  obtain ⟨a2, h2, h⟩ := except_bind_ok h
  obtain ⟨a3, h3, h⟩ := except_bind_ok h
  obtain ⟨a4, h4, h⟩ := except_bind_ok h
  obtain ⟨a5, h5, h⟩ := except_bind_ok h
  obtain ⟨a6, h6, h⟩ := except_bind_ok h
  obtain ⟨a7, h7, h⟩ := except_bind_ok h
  obtain ⟨a8, h8, h⟩ := except_bind_ok h
  obtain ⟨a9, h9, h⟩ := except_bind_ok h
  injection h with h
  subst h
  simp

theorem batteryRowFallback_ok_of_len (t : String) (row : List Value) (h : 16 ≤ row.length) :
    ∃ r, batteryRowFallback t row = .ok r := by
  cases hv : batteryRowFallback t row with
  | ok r => exact ⟨r, rfl⟩
  | error e =>
    exfalso
    unfold batteryRowFallback at hv
    rw [cellAt_ok row 0 (by omega),
    cellAt_ok row 2 (by omega),
    cellAt_ok row 3 (by omega),
    cellAt_ok row 4 (by omega),
    cellAt_ok row 8 (by omega),
    cellAt_ok row 9 (by omega),
    cellAt_ok row 10 (by omega),
    cellAt_ok row 14 (by omega),
    cellAt_ok row 15 (by omega)] at hv
    simp [Bind.bind, Except.bind] at hv

theorem meterRowMain_ok_length (g : String → Option CivilDate) (tz : Int) (t : String) (row : List Value) (r : Row)
    (h : meterRowMain g tz t row = .ok r) : 10 ≤ row.length := by
  unfold meterRowMain at h
  obtain ⟨a1, h1, h⟩ := except_bind_ok h
  obtain ⟨a2, h2, h⟩ := except_bind_ok h
  obtain ⟨a3, h3, h⟩ := except_bind_ok h
  obtain ⟨a4, h4, h⟩ := except_bind_ok h
  obtain ⟨a5, h5, h⟩ := except_bind_ok h
  obtain ⟨a6, h6, h⟩ := except_bind_ok h
  obtain ⟨a7, h7, h⟩ := except_bind_ok h
  by_contra hlt
  unfold cellAt at h7
  rw [dif_neg (by omega)] at h7
  cases h7

theorem meterRowMain_date (g : String → Option CivilDate) (tz : Int) (t : String) (row : List Value) (r : Row)
    (h : meterRowMain g tz t row = .ok r) :
    ("Date Added to Tool", some t) ∈ r.fields := by
  unfold meterRowMain at h
  obtain ⟨a1, h1, h⟩ := except_bind_ok h
  obtain ⟨a2, h2, h⟩ := except_bind_ok h
  obtain ⟨a3, h3, h⟩ := except_bind_ok h
  obtain ⟨a4, h4, h⟩ := except_bind_ok h
  obtain ⟨a5, h5, h⟩ := except_bind_ok h
  obtain ⟨a6, h6, h⟩ := except_bind_ok h
  obtain ⟨a7, h7, h⟩ := except_bind_ok h
  injection h with h
  subst h
  simp

theorem meterRowMain_ok_of_len (g : String → Option CivilDate) (tz : Int) (t : String) (row : List Value) (h : 10 ≤ row.length) :
    ∃ r, meterRowMain g tz t row = .ok r := by
  cases hv : meterRowMain g tz t row with
  | ok r => exact ⟨r, rfl⟩
  | error e =>
    exfalso
    unfold meterRowMain at hv
    rw [cellAt_ok row 0 (by omega),
    cellAt_ok row 1 (by omega),
    cellAt_ok row 2 (by omega),
    cellAt_ok row 3 (by omega),
    cellAt_ok row 4 (by omega),
    cellAt_ok row 8 (by omega),
    cellAt_ok row 9 (by omega)] at hv
    simp [Bind.bind, Except.bind] at hv

/-- Claim C10 (confirmed): within one ingestion run every produced record
carries the run's single `current_time` string as its `Date Added to Tool`
value — on the pv normalization, on the battery normalizer (main and fallback
paths alike, which share the `current_time` assigned before the try block),
and on the meter normalizer likewise. -/
theorem c10_uniform_run_timestamp (ts : String) :
    (∀ (src : List SourceRow) r, r ∈ src.map (normalizeRow ts) →
        ("Date Added to Tool", some ts) ∈ r.fields)
    ∧ (∀ sheet out, batteryNormalize ts sheet = .ok out →
        ∀ r ∈ out, ("Date Added to Tool", some ts) ∈ r.fields)
    ∧ (∀ g tz sheet out, meterNormalize g tz ts sheet = .ok out →
        ∀ r ∈ out, ("Date Added to Tool", some ts) ∈ r.fields) := by
  refine ⟨?_, ?_, ?_⟩
  · intro src r hr
    obtain ⟨s, _, rfl⟩ := List.mem_map.mp hr
    simp [normalizeRow]
  · intro sheet out h r hr
    unfold batteryNormalize at h
    cases hmain : mapRows (batteryRowMain ts) sheet with
    | ok out1 =>
      rw [hmain] at h
      injection h with h
      subst h
      obtain ⟨row, _, hrow⟩ := mapRows_ok_mem (batteryRowMain ts) sheet out1 hmain r hr
      exact batteryRowMain_date ts row r hrow
    | error e =>
      rw [hmain] at h
      obtain ⟨row, _, hrow⟩ := mapRows_ok_mem (batteryRowFallback ts) sheet out h r hr
      exact batteryRowFallback_date ts row r hrow
  · intro g tz sheet out h r hr
    unfold meterNormalize at h
    cases hmain : mapRows (meterRowMain g tz ts) sheet with
    | ok out1 =>
      rw [hmain] at h
      injection h with h
      subst h
      obtain ⟨row, _, hrow⟩ := mapRows_ok_mem (meterRowMain g tz ts) sheet out1 hmain r hr
      exact meterRowMain_date g tz ts row r hrow
    | error e =>
      rw [hmain] at h
      obtain ⟨row, _, hrow⟩ := mapRows_ok_mem (meterRowFallback g tz ts) sheet out h r hr
      exact meterRowMain_date g tz ts row r hrow

/-- Witness for C10 on a concrete 16-column all-null battery sheet: the single
produced record carries the run timestamp. -/
theorem c10_witness :
    ("Date Added to Tool", some "2024-05-05 05:05:05")
      ∈ (Row.mk "nan_nan"
          [("Manufacturer", none), ("Model Number", none), ("Chemistry", none),
           ("Description", none), ("Certifying Entity", none), ("Certificate Date", none),
           ("Capacity (kWh)", none), ("Discharge Rate (kW)", none),
           ("Round Trip Efficiency (%)", none), ("Battery Listing Date", none),
           ("Last Update", none),
           ("Date Added to Tool", some "2024-05-05 05:05:05")]).fields :=
  (c10_uniform_run_timestamp "2024-05-05 05:05:05").2.1
    [List.replicate 16 none]
    [Row.mk "nan_nan"
      [("Manufacturer", none), ("Model Number", none), ("Chemistry", none),
       ("Description", none), ("Certifying Entity", none), ("Certificate Date", none),
       ("Capacity (kWh)", none), ("Discharge Rate (kW)", none),
       ("Round Trip Efficiency (%)", none), ("Battery Listing Date", none),
       ("Last Update", none),
       ("Date Added to Tool", some "2024-05-05 05:05:05")]]
    rfl _ (by simp)

/-- Counterexample to Claim C8 as stated: a battery sheet whose rows have only
15 columns (one bound trailing column missing) makes the main column mapping
raise, and the fallback mapping — which binds the same source index 15 —
raises as well, so the normalizer aborts with an error instead of producing
one record per row. -/
theorem c8_counterexample :
    batteryNormalize "2024-01-01 00:00:00" [List.replicate 15 (none : Value)]
      = .error () := rfl

/-- Claim C8 (amended): when binding raises, the normalizer retries the
documented reduced field set, but the reduced set binds the same source column
indices, so records for all rows are produced exactly when every bound index is
present (battery: 16 columns; meters: 10 columns); a battery sheet with any
shorter row aborts the run even through the fallback, and the meter fallback is
literally the same binding as its main mapping. -/
theorem c8_amended_degrade_bounds :
    (∀ t sheet, (∀ row ∈ sheet, 16 ≤ List.length row) →
        ∃ out, batteryNormalize t sheet = .ok out ∧ out.length = sheet.length)
    ∧ (∀ t sheet, (∃ row ∈ sheet, List.length row < 16) →
        batteryNormalize t sheet = .error ())
    ∧ (∀ g tz t sheet, (∀ row ∈ sheet, 10 ≤ List.length row) →
        ∃ out, meterNormalize g tz t sheet = .ok out ∧ out.length = sheet.length)
    ∧ (∀ g tz t row, meterRowFallback g tz t row = meterRowMain g tz t row) := by
  refine ⟨?_, ?_, ?_, fun _ _ _ _ => rfl⟩
  · intro t sheet hall
    obtain ⟨out, hout, hlen⟩ := mapRows_ok_of_all (batteryRowMain t) sheet
      (fun row hrow => batteryRowMain_ok_of_len t row (hall row hrow))
    refine ⟨out, ?_, hlen⟩
    unfold batteryNormalize
    rw [hout]
  · intro t sheet hex
    obtain ⟨row, hrow, hlen⟩ := hex
    have hmain : batteryRowMain t row = .error () := by
      apply except_unit_error
      intro r hok
      exact absurd (batteryRowMain_ok_length t row r hok) (by omega)
    have hfb : batteryRowFallback t row = .error () := by
      apply except_unit_error
      intro r hok
      exact absurd (batteryRowFallback_ok_length t row r hok) (by omega)
    have h1 := mapRows_error_of_mem (batteryRowMain t) sheet row hrow hmain
    have h2 := mapRows_error_of_mem (batteryRowFallback t) sheet row hrow hfb
    unfold batteryNormalize
    rw [h1]
    exact h2
  · intro g tz t sheet hall
    obtain ⟨out, hout, hlen⟩ := mapRows_ok_of_all (meterRowMain g tz t) sheet
      (fun row hrow => meterRowMain_ok_of_len g tz t row (hall row hrow))
    refine ⟨out, ?_, hlen⟩
    unfold meterNormalize
    rw [hout]

/-- Witness for C8 (amended): a one-row 16-column battery sheet yields exactly
one record. -/
theorem c8_witness :
    ∃ out, batteryNormalize "T" [List.replicate 16 (none : Value)] = .ok out
      ∧ out.length = [List.replicate 16 (none : Value)].length :=
  c8_amended_degrade_bounds.1 "T" [List.replicate 16 none]
    (by intro row hrow; simp at hrow; subst hrow; simp)

/-! ### Helper lemmas about date normalization -/

theorem digitChar_mod_isDigit (n : Nat) : (Nat.digitChar (n % 10)).isDigit = true := by
  have h : n % 10 < 10 := Nat.mod_lt _ (by norm_num)
  have hall : ∀ m, m < 10 → (Nat.digitChar m).isDigit = true := by decide
  exact hall _ h

theorem formatCivil_isYmd (d : CivilDate) : isYmd (formatCivil d) = true := by
  simp [isYmd, formatCivil, digitChar_mod_isDigit]

theorem ymOut_length (s : String) (r : String) (h : ymOut s = some r) :
    s.data.length = 6 ∨ s.data.length = 7 := by
  unfold ymOut at h
  split at h
  · rename_i a b c d e f heq
    exact Or.inl (by rw [heq]; rfl)
  · rename_i a b c d e f g heq
    exact Or.inr (by rw [heq]; rfl)
  · cases h

theorem ymOut_not_epoch (s : String) (r : String) (h : ymOut s = some r) :
    isTenDigitEpoch s = false := by
  rcases ymOut_length s r h with h6 | h7
  · simp [isTenDigitEpoch, h6]
  · simp [isTenDigitEpoch, h7]

theorem isYmd_not_epoch (s : String) (hy : isYmd s = true) :
    isTenDigitEpoch s = false := by
  unfold isYmd at hy
  split at hy
  · rename_i a b c d e f g h i j heq
    simp only [Bool.and_eq_true, beq_iff_eq] at hy
    obtain ⟨⟨⟨⟨⟨⟨⟨⟨⟨ha, hb⟩, hc⟩, hd⟩, he⟩, hf⟩, hg⟩, hh⟩, hi⟩, hj⟩ := hy
    subst he
    have hdash : ('-' : Char).isDigit = false := rfl
    simp [isTenDigitEpoch, heq, hdash]
  · cases hy

theorem isYmd_not_ym (s : String) (hy : isYmd s = true) : ymOut s = none := by
  unfold isYmd at hy
  split at hy
  · rename_i a b c d e f g h i j heq
    simp [ymOut, heq]
  · cases hy

theorem isYmd_ne_empty (s : String) (hy : isYmd (pyStrip s) = true) : s ≠ "" := by
  intro he
  rw [he] at hy
  exact absurd hy (by decide)

/-- Claim C7 (confirmed): date normalization is total and never raises — a
null cell and the empty string normalize to null; a ten-digit digit string is
converted through `fromtimestamp` and always formats as a `YYYY-MM-DD` string;
a `YYYY-M` string has its month zero-padded and `-01` appended (a two-digit
month is kept and `-01` appended); an already `YYYY-MM-DD`-shaped string passes
through unchanged; and anything else is delegated to the general parser `g`,
yielding null exactly when `g` cannot parse it. -/
theorem c7_date_normalization_total (g : String → Option CivilDate) (tz : Int) :
    (parse_date_to_standard_format g tz none = none)
    ∧ (parse_date_to_standard_format g tz (some "") = none)
    ∧ (∀ s, isTenDigitEpoch (pyStrip s) = true →
        parse_date_to_standard_format g tz (some s)
            = some (formatCivil (epochToCivil tz (strToNat (pyStrip s))))
          ∧ isYmd (formatCivil (epochToCivil tz (strToNat (pyStrip s)))) = true)
    ∧ (∀ s y1 y2 y3 y4 m1, (pyStrip s).data = [y1, y2, y3, y4, '-', m1] →
        y1.isDigit → y2.isDigit → y3.isDigit → y4.isDigit → m1.isDigit →
        parse_date_to_standard_format g tz (some s)
          = some (String.mk [y1, y2, y3, y4, '-', '0', m1, '-', '0', '1']))
    ∧ (∀ s y1 y2 y3 y4 m1 m2, (pyStrip s).data = [y1, y2, y3, y4, '-', m1, m2] →
        y1.isDigit → y2.isDigit → y3.isDigit → y4.isDigit → m1.isDigit → m2.isDigit →
        parse_date_to_standard_format g tz (some s)
          = some (String.mk [y1, y2, y3, y4, '-', m1, m2, '-', '0', '1']))
    ∧ (∀ s, isYmd (pyStrip s) = true →
        parse_date_to_standard_format g tz (some s) = some (pyStrip s))
    ∧ (∀ s, s ≠ "" → isTenDigitEpoch (pyStrip s) = false → ymOut (pyStrip s) = none →
        isYmd (pyStrip s) = false →
        parse_date_to_standard_format g tz (some s) = (g (pyStrip s)).map formatCivil) := by
  refine ⟨rfl, rfl, ?_, ?_, ?_, ?_, ?_⟩
  · intro s h
    have hs : s ≠ "" := by
      intro he
      rw [he] at h
      exact absurd h (by decide)
    refine ⟨?_, formatCivil_isYmd _⟩
    simp only [parse_date_to_standard_format, if_neg hs]
    rw [if_pos h]
  · intro s y1 y2 y3 y4 m1 hdata h1 h2 h3 h4 h5
    have hs : s ≠ "" := by
      intro he
      rw [he] at hdata
      have h0 : (pyStrip "").data = [] := rfl
      rw [h0] at hdata
      cases hdata
    have hep : isTenDigitEpoch (pyStrip s) = false := by
      simp [isTenDigitEpoch, hdata]
    have hym : ymOut (pyStrip s)
        = some (String.mk [y1, y2, y3, y4, '-', '0', m1, '-', '0', '1']) := by
      simp [ymOut, hdata, h1, h2, h3, h4, h5]
    simp only [parse_date_to_standard_format, if_neg hs, hep, Bool.false_eq_true,
      if_false, hym]
  · intro s y1 y2 y3 y4 m1 m2 hdata h1 h2 h3 h4 h5 h6
    have hs : s ≠ "" := by
      intro he
      rw [he] at hdata
      have h0 : (pyStrip "").data = [] := rfl
      rw [h0] at hdata
      cases hdata
    have hep : isTenDigitEpoch (pyStrip s) = false := by
      simp [isTenDigitEpoch, hdata]
    have hym : ymOut (pyStrip s)
        = some (String.mk [y1, y2, y3, y4, '-', m1, m2, '-', '0', '1']) := by
      simp [ymOut, hdata, h1, h2, h3, h4, h5, h6]
    simp only [parse_date_to_standard_format, if_neg hs, hep, Bool.false_eq_true,
      if_false, hym]
  · intro s hy
    have hs : s ≠ "" := isYmd_ne_empty s hy
    have hep := isYmd_not_epoch (pyStrip s) hy
    have hym := isYmd_not_ym (pyStrip s) hy
    simp only [parse_date_to_standard_format, if_neg hs, hep, Bool.false_eq_true,
      if_false, hym, hy, if_true]
  · intro s hs hep hym hymd
    simp only [parse_date_to_standard_format, if_neg hs, hep, Bool.false_eq_true,
      if_false, hym, hymd]

/-- Witness for C7 at the spec's reference inputs: the fixed epoch
`1700000000` yields a `YYYY-MM-DD` string, `2017-9` is zero-padded to
`2017-09-01`, `2020-05-01` passes through, and an unparseable string falls to
the general parser (null for a parser that rejects everything). -/
theorem c7_witness :
    (parse_date_to_standard_format (fun _ => none) 0 (some "1700000000")
        = some (formatCivil (epochToCivil 0 (strToNat (pyStrip "1700000000"))))
      ∧ isYmd (formatCivil (epochToCivil 0 (strToNat (pyStrip "1700000000")))) = true)
    ∧ (parse_date_to_standard_format (fun _ => none) 0 (some "2017-9")
        = some (String.mk ['2', '0', '1', '7', '-', '0', '9', '-', '0', '1']))
    ∧ (parse_date_to_standard_format (fun _ => none) 0 (some "2020-05-01")
        = some (pyStrip "2020-05-01"))
    ∧ (parse_date_to_standard_format (fun _ => none) 0 (some "hello")
        = ((fun _ => none) (pyStrip "hello")).map formatCivil) :=
  ⟨(c7_date_normalization_total (fun _ => none) 0).2.2.1 "1700000000" (by decide),
   (c7_date_normalization_total (fun _ => none) 0).2.2.2.1 "2017-9"
     '2' '0' '1' '7' '9' (by decide) (by decide) (by decide) (by decide) (by decide)
     (by decide),
   (c7_date_normalization_total (fun _ => none) 0).2.2.2.2.2.1 "2020-05-01" (by decide),
   (c7_date_normalization_total (fun _ => none) 0).2.2.2.2.2.2 "hello" (by decide)
     (by decide) (by decide) (by decide)⟩
end SolarExplorer
